import Mathlib

/-!
Verification of the ansible-universe role build tool
(`src/ansible/universe/__init__.py`) against its specification.

The Python code is shallowly embedded: Python dicts become association
lists carrying Python dict update semantics (assignment to an existing key
replaces its value in place, assignment to a fresh key appends at the end),
the slice of the role directory that generation and cleanup read and write
becomes an explicit record, and Python exceptions become an explicit error
type threaded through `Except`.
-/

namespace Universe

/-- Constant `DEFAULTS_PATH` from the top of the module. -/
def DEFAULTS_PATH : String := "defaults/main.yml"

/-- Constant `README_PATH`. -/
def README_PATH : String := "README.md"

/-- Constant `META_PATH`. -/
def META_PATH : String := "meta/main.yml"

/-- Constant `TASKSDIR`. -/
def TASKSDIR : String := "tasks"

/-- Constant `MAINTASK_PATH` (`os.path.join(TASKSDIR, "main.yml")`). -/
def MAINTASK_PATH : String := "tasks/main.yml"

/-- Constant `DISTDIR`. -/
def DISTDIR : String := "dist"

/-- Python dict lookup `d[k]` / `d.get(k)`: value at the first matching key. -/
def dictGet? {α : Type} (d : List (String × α)) (k : String) : Option α :=
  match d with
  | [] => none
  | (k1, v) :: rest => if k1 = k then some v else dictGet? rest k

/-- Python dict assignment `d[k] = v`: replaces the value at an existing key in
place, appends a fresh key at the end. -/
def dictSet {α : Type} (d : List (String × α)) (k : String) (v : α) :
    List (String × α) :=
  match d with
  | [] => [(k, v)]
  | (k1, v1) :: rest => if k1 = k then (k, v) :: rest else (k1, v1) :: dictSet rest k v

/-- Key list of a Python dict. -/
def dictKeys {α : Type} (d : List (String × α)) : List String :=
  d.map Prod.fst

theorem dictGet?_dictSet {α : Type} (d : List (String × α)) (k k1 : String) (v : α) :
    dictGet? (dictSet d k v) k1 = if k1 = k then some v else dictGet? d k1 := by
  induction d with
  | nil =>
    simp only [dictSet, dictGet?]
    by_cases h : k1 = k
    · simp [h]
    · simp [h, Ne.symm h]
  | cons hd tl ih =>
    obtain ⟨k2, v2⟩ := hd
    by_cases h2 : k2 = k
    · subst h2
      by_cases h1 : k1 = k2
      · subst h1
        simp [dictSet, dictGet?]
      · simp [dictSet, dictGet?, h1, Ne.symm h1]
    · by_cases h1 : k2 = k1
      · subst h1
        simp [dictSet, dictGet?, h2, Ne.symm h2]
      · simp [dictSet, dictGet?, h2, h1, ih]

theorem dictGet?_eq_none_iff {α : Type} (d : List (String × α)) (k : String) :
    dictGet? d k = none ↔ k ∉ dictKeys d := by
  induction d with
  | nil => simp [dictGet?, dictKeys]
  | cons hd tl ih =>
    obtain ⟨k1, v1⟩ := hd
    by_cases h : k1 = k
    · subst h
      simp [dictGet?, dictKeys]
    · simp [dictGet?, dictKeys, h, Ne.symm h] at ih ⊢
      exact ih

theorem dictGet?_isSome_iff {α : Type} (d : List (String × α)) (k : String) :
    (dictGet? d k).isSome = true ↔ k ∈ dictKeys d := by
  have h := dictGet?_eq_none_iff d k
  cases hg : dictGet? d k with
  | none =>
    simp [hg] at h ⊢
    exact h
  | some v =>
    simp [hg] at h ⊢
    exact h

theorem dictKeys_dictSet {α : Type} (d : List (String × α)) (k : String) (v : α) :
    dictKeys (dictSet d k v) =
      if (dictGet? d k).isSome then dictKeys d else dictKeys d ++ [k] := by
  induction d with
  | nil => simp [dictSet, dictGet?, dictKeys]
  | cons hd tl ih =>
    obtain ⟨k1, v1⟩ := hd
    by_cases h : k1 = k
    · subst h
      simp [dictSet, dictGet?, dictKeys]
    · simp only [dictKeys] at ih ⊢
      simp only [dictSet, dictGet?, h, if_false]
      rw [List.map_cons, ih]
      by_cases hs : (dictGet? tl k).isSome <;> simp [hs]

theorem dictKeys_dictSet_nodup {α : Type} (d : List (String × α)) (k : String) (v : α)
    (h : (dictKeys d).Nodup) : (dictKeys (dictSet d k v)).Nodup := by
  rw [dictKeys_dictSet]
  by_cases hs : (dictGet? d k).isSome
  · simpa [hs]
  · have hk : k ∉ dictKeys d := by
      rw [← dictGet?_eq_none_iff]
      exact Option.not_isSome_iff_eq_none.mp hs
    simp only [hs, if_false]
    exact List.Nodup.append h (List.nodup_singleton k) (by
      intro a ha hb
      simp at hb
      subst hb
      exact hk ha)

/-- Entry of the merged variable table built by `Role.variables`: a dict with
the optional fields `default` and `description`. -/
structure VarEntry (α : Type) where
  default? : Option α
  description? : Option String
  deriving DecidableEq, Repr

/-- First pass of `Role.variables` over the defaults file: a fresh key is
seeded with only the default, an existing entry gets its `default` field set. -/
def varDefaultsStep {α : Type} (d : List (String × VarEntry α)) (kv : String × α) :
    List (String × VarEntry α) :=
  match dictGet? d kv.1 with
  | none => dictSet d kv.1 ⟨some kv.2, none⟩
  | some e => dictSet d kv.1 ⟨some kv.2, e.description?⟩

/-- Second pass of `Role.variables` over the manifest `variables` mapping: a
fresh key is seeded with only the description, an existing entry gets its
`description` field set. -/
def varDescriptionStep {α : Type} (d : List (String × VarEntry α))
    (kv : String × String) : List (String × VarEntry α) :=
  match dictGet? d kv.1 with
  | none => dictSet d kv.1 ⟨none, some kv.2⟩
  | some e => dictSet d kv.1 ⟨e.default?, some kv.2⟩

/-- `Role.variables` (the name `variables` is reserved in Lean): merge the
defaults-file mapping and the manifest `variables` mapping into one table,
defaults pass first. -/
def roleVariables {α : Type} (defaults : List (String × α))
    (manifestVars : List (String × String)) : List (String × VarEntry α) :=
  manifestVars.foldl varDescriptionStep (defaults.foldl varDefaultsStep [])

/-- Merged entry the specification describes for one name: the field from each
source that has the name, no entry when neither has it. -/
def specMergedEntry? {α : Type} (dv : Option α) (mv : Option String) :
    Option (VarEntry α) :=
  match dv, mv with
  | none, none => none
  | dv, mv => some ⟨dv, mv⟩

theorem dictGet?_varDefaultsStep {α : Type} (acc : List (String × VarEntry α))
    (kv : String × α) (k : String) :
    dictGet? (varDefaultsStep acc kv) k =
      if k = kv.1 then
        some ⟨some kv.2, (dictGet? acc kv.1).bind VarEntry.description?⟩
      else dictGet? acc k := by
  unfold varDefaultsStep
  cases hg : dictGet? acc kv.1 with
  | none =>
    rw [dictGet?_dictSet]
    by_cases h : k = kv.1 <;> simp [h, hg]
  | some e =>
    rw [dictGet?_dictSet]
    by_cases h : k = kv.1 <;> simp [h, hg]

theorem dictGet?_varDescriptionStep {α : Type} (acc : List (String × VarEntry α))
    (kv : String × String) (k : String) :
    dictGet? (varDescriptionStep acc kv) k =
      if k = kv.1 then
        some ⟨(dictGet? acc kv.1).bind VarEntry.default?, some kv.2⟩
      else dictGet? acc k := by
  unfold varDescriptionStep
  cases hg : dictGet? acc kv.1 with
  | none =>
    rw [dictGet?_dictSet]
    by_cases h : k = kv.1 <;> simp [h, hg]
  | some e =>
    rw [dictGet?_dictSet]
    by_cases h : k = kv.1 <;> simp [h, hg]

theorem dictGet?_foldl_defaults {α : Type} (ds : List (String × α))
    (acc : List (String × VarEntry α)) (k : String) (hnd : (dictKeys ds).Nodup) :
    dictGet? (ds.foldl varDefaultsStep acc) k =
      match dictGet? ds k with
      | some v => some ⟨some v, (dictGet? acc k).bind VarEntry.description?⟩
      | none => dictGet? acc k := by
  induction ds generalizing acc with
  | nil => simp [dictGet?]
  | cons hd tl ih =>
    obtain ⟨k0, v0⟩ := hd
    simp only [dictKeys, List.map_cons, List.nodup_cons] at hnd
    obtain ⟨hk0, htl⟩ := hnd
    rw [List.foldl_cons, ih _ htl]
    simp only [dictGet?_varDefaultsStep]
    by_cases h : k = k0
    · subst h
      have hnone : dictGet? tl k = none := by
        rw [dictGet?_eq_none_iff]
        simpa [dictKeys] using hk0
      simp [hnone, dictGet?]
    · simp [h, Ne.symm h, dictGet?]

theorem dictGet?_foldl_descriptions {α : Type} (ms : List (String × String))
    (acc : List (String × VarEntry α)) (k : String) (hnd : (dictKeys ms).Nodup) :
    dictGet? (ms.foldl varDescriptionStep acc) k =
      match dictGet? ms k with
      | some w => some ⟨(dictGet? acc k).bind VarEntry.default?, some w⟩
      | none => dictGet? acc k := by
  induction ms generalizing acc with
  | nil => simp [dictGet?]
  | cons hd tl ih =>
    obtain ⟨k0, v0⟩ := hd
    simp only [dictKeys, List.map_cons, List.nodup_cons] at hnd
    obtain ⟨hk0, htl⟩ := hnd
    rw [List.foldl_cons, ih _ htl]
    simp only [dictGet?_varDescriptionStep]
    by_cases h : k = k0
    · subst h
      have hnone : dictGet? tl k = none := by
        rw [dictGet?_eq_none_iff]
        simpa [dictKeys] using hk0
      simp [hnone, dictGet?]
    · simp [h, Ne.symm h, dictGet?]

theorem varDefaultsStep_keys_nodup {α : Type} (acc : List (String × VarEntry α))
    (kv : String × α) (h : (dictKeys acc).Nodup) :
    (dictKeys (varDefaultsStep acc kv)).Nodup := by
  unfold varDefaultsStep
  cases hg : dictGet? acc kv.1 <;> exact dictKeys_dictSet_nodup _ _ _ h

theorem varDescriptionStep_keys_nodup {α : Type} (acc : List (String × VarEntry α))
    (kv : String × String) (h : (dictKeys acc).Nodup) :
    (dictKeys (varDescriptionStep acc kv)).Nodup := by
  unfold varDescriptionStep
  cases hg : dictGet? acc kv.1 <;> exact dictKeys_dictSet_nodup _ _ _ h

theorem roleVariables_keys_nodup {α : Type} (ds : List (String × α))
    (ms : List (String × String)) : (dictKeys (roleVariables ds ms)).Nodup := by
  unfold roleVariables
  have h1 : ∀ (l : List (String × α)) (acc : List (String × VarEntry α)),
      (dictKeys acc).Nodup → (dictKeys (l.foldl varDefaultsStep acc)).Nodup := by
    intro l
    induction l with
    | nil => intro acc h; exact h
    | cons hd tl ih => intro acc h; exact ih _ (varDefaultsStep_keys_nodup acc hd h)
  have h2 : ∀ (l : List (String × String)) (acc : List (String × VarEntry α)),
      (dictKeys acc).Nodup → (dictKeys (l.foldl varDescriptionStep acc)).Nodup := by
    intro l
    induction l with
    | nil => intro acc h; exact h
    | cons hd tl ih => intro acc h; exact ih _ (varDescriptionStep_keys_nodup acc hd h)
  exact h2 _ _ (h1 _ _ (by simp [dictKeys]))

/-- C1: for mappings (no duplicate keys) as defaults file and manifest
`variables`, the merged table of `Role.variables` has exactly one entry per
name present in either source, and the entry at a name carries exactly the
fields the sources provide — `default` from the defaults file, `description`
from the manifest — neither pass overwriting the field set by the other. -/
theorem claim1_variables_merge {α : Type} (defaults : List (String × α))
    (manifestVars : List (String × String))
    (hd : (dictKeys defaults).Nodup) (hm : (dictKeys manifestVars).Nodup) :
    (dictKeys (roleVariables defaults manifestVars)).Nodup ∧
    (∀ k, k ∈ dictKeys (roleVariables defaults manifestVars) ↔
      k ∈ dictKeys defaults ∨ k ∈ dictKeys manifestVars) ∧
    ∀ k, dictGet? (roleVariables defaults manifestVars) k =
      specMergedEntry? (dictGet? defaults k) (dictGet? manifestVars k) := by
  have hchar : ∀ k, dictGet? (roleVariables defaults manifestVars) k =
      specMergedEntry? (dictGet? defaults k) (dictGet? manifestVars k) := by
    intro k
    unfold roleVariables
    rw [dictGet?_foldl_descriptions _ _ _ hm, dictGet?_foldl_defaults _ _ _ hd]
    cases dictGet? defaults k <;> cases dictGet? manifestVars k <;>
      simp [specMergedEntry?, dictGet?]
  refine ⟨roleVariables_keys_nodup defaults manifestVars, ?_, hchar⟩
  intro k
  rw [← dictGet?_isSome_iff, hchar k, ← dictGet?_isSome_iff, ← dictGet?_isSome_iff]
  cases dictGet? defaults k <;> cases dictGet? manifestVars k <;>
    simp [specMergedEntry?]

/-- Witness for C1 at concrete mappings: the name `a` is in both sources, `b`
only in the manifest variables. -/
theorem claim1_variables_merge_witness :
    (dictKeys (roleVariables [("a", 1)] [("a", "da"), ("b", "db")])).Nodup ∧
    (∀ k, k ∈ dictKeys (roleVariables [("a", 1)] [("a", "da"), ("b", "db")]) ↔
      k ∈ dictKeys [("a", (1 : Nat))] ∨ k ∈ dictKeys [("a", "da"), ("b", "db")]) ∧
    ∀ k, dictGet? (roleVariables [("a", 1)] [("a", "da"), ("b", "db")]) k =
      specMergedEntry? (dictGet? [("a", (1 : Nat))] k)
        (dictGet? [("a", "da"), ("b", "db")] k) :=
  claim1_variables_merge [("a", 1)] [("a", "da"), ("b", "db")]
    (by decide) (by decide)

/-- Platform entry of the manifest `galaxy_info.platforms` sequence. -/
structure Platform where
  name : String
  versions : List String
  deriving DecidableEq, Repr

/-- Name of the assertion play prepended by `Role._generate_maintask`. -/
def assertTaskName : String := "assert the target platform is supported"

/-- Fixed message of the assertion play. -/
def assertFailMsg : String :=
  "unsupported platform -- please contact the role maintainer for support"

/-- Python repr of a plain string, as `str` of a list shows its elements. -/
def pyStrRepr (s : String) : String := "\x27" ++ s ++ "\x27"

/-- Python `str` of a list of strings: brackets, comma-separated quoted names. -/
def pyListRepr (xs : List String) : String :=
  "[" ++ String.intercalate ", " (xs.map pyStrRepr) ++ "]"

/-- Guard of the assertion play,
`"ansible_distribution not in %s" % list(platform["name"] for platform in platforms)`. -/
def assertWhen (names : List String) : String :=
  "ansible_distribution not in " ++ pyListRepr names

/-- Play dicts appended to `mainplays` by `Role._generate_maintask`: the
platform assertion, or an include of one task file with an optional guard. -/
inductive MainPlay where
  | assertPlay (name : String) (failMsg : String) (whenCond : String)
  | includePlay (path : String) (whenCond? : Option String)
  deriving DecidableEq, Repr

/-- `Role._generate_maintask` without the final write: build the ordered play
list from the platforms, the glob of task files and the `inconditions` map. -/
def generateMaintask (platforms : List Platform) (taskFiles : List String)
    (inconditions : List (String × String)) : List MainPlay :=
  (if platforms.isEmpty then [] else
    [MainPlay.assertPlay assertTaskName assertFailMsg
      (assertWhen (platforms.map Platform.name))]) ++
  taskFiles.map (fun name =>
    match dictGet? inconditions name with
    | some cond => MainPlay.includePlay name (some cond)
    | none => MainPlay.includePlay name none)

/-- C2: the generated inclusion list begins with the platform-assertion play
exactly when the platforms sequence is non-empty, and the assertion guard is
built from exactly the name fields of the platform entries in manifest order. -/
theorem claim2_platform_assertion (platforms : List Platform)
    (taskFiles : List String) (inconditions : List (String × String)) :
    (platforms ≠ [] →
      (generateMaintask platforms taskFiles inconditions).head? =
        some (MainPlay.assertPlay assertTaskName assertFailMsg
          (assertWhen (platforms.map Platform.name)))) ∧
    (∀ nm fm w rest,
      generateMaintask platforms taskFiles inconditions =
        MainPlay.assertPlay nm fm w :: rest →
      platforms ≠ [] ∧ nm = assertTaskName ∧ fm = assertFailMsg ∧
        w = assertWhen (platforms.map Platform.name)) := by
  constructor
  · intro hne
    have : platforms.isEmpty = false := by
      cases platforms with
      | nil => exact absurd rfl hne
      | cons hd tl => rfl
    simp [generateMaintask, this]
  · intro nm fm w rest heq
    by_cases hne : platforms.isEmpty
    · exfalso
      simp only [generateMaintask, hne, if_true, List.nil_append] at heq
      cases taskFiles with
      | nil => exact List.noConfusion heq
      | cons hd tl =>
        simp only [List.map_cons] at heq
        cases hg : dictGet? inconditions hd <;> rw [hg] at heq <;>
          exact MainPlay.noConfusion (List.head_eq_of_cons_eq heq)
    · have hplat : platforms ≠ [] := by
        cases platforms with
        | nil => simp at hne
        | cons hd tl => simp
      simp only [generateMaintask, hne, if_false, List.cons_append,
        List.nil_append] at heq
      obtain ⟨h1, -⟩ := List.cons_eq_cons.mp heq
      cases h1
      exact ⟨hplat, rfl, rfl, rfl⟩

/-- Witness for C2 at a concrete manifest with one platform and one task
file. -/
theorem claim2_platform_assertion_witness :
    (generateMaintask [⟨"Debian", []⟩] ["tasks/install.yml"] []).head? =
      some (MainPlay.assertPlay assertTaskName assertFailMsg
        (assertWhen ["Debian"])) :=
  (claim2_platform_assertion [⟨"Debian", []⟩] ["tasks/install.yml"] []).1
    (by simp)

/-- C3: after the optional assertion play, the inclusion list has one include
entry per discovered task file in glob order; the entry carries a guard
exactly when the file path is a key of `inconditions`, and the guard is that
value stored at that key. -/
theorem claim3_include_guards (platforms : List Platform)
    (taskFiles : List String) (inconditions : List (String × String))
    (hic : (dictKeys inconditions).Nodup) :
    ((generateMaintask platforms taskFiles inconditions).drop
        (if platforms.isEmpty then 0 else 1) =
      taskFiles.map (fun name =>
        MainPlay.includePlay name (dictGet? inconditions name))) ∧
    (∀ name cond, dictGet? inconditions name = some cond ↔
      (name, cond) ∈ inconditions) ∧
    (∀ name, dictGet? inconditions name = none ↔ name ∉ dictKeys inconditions) := by
  refine ⟨?_, ?_, fun name => dictGet?_eq_none_iff inconditions name⟩
  · have hmap : taskFiles.map (fun name =>
        match dictGet? inconditions name with
        | some cond => MainPlay.includePlay name (some cond)
        | none => MainPlay.includePlay name none) =
        taskFiles.map (fun name =>
          MainPlay.includePlay name (dictGet? inconditions name)) := by
      induction taskFiles with
      | nil => rfl
      | cons hd tl ih => cases hg : dictGet? inconditions hd <;> simp [hg, ih]
    by_cases hne : platforms.isEmpty <;> simp [generateMaintask, hne, hmap]
  · intro name cond
    constructor
    · intro hg
      induction inconditions with
      | nil => exact absurd hg (by simp [dictGet?])
      | cons hd tl ih =>
        obtain ⟨k1, v1⟩ := hd
        simp only [dictKeys, List.map_cons, List.nodup_cons] at hic
        by_cases h : k1 = name
        · subst h
          simp only [dictGet?, if_pos rfl] at hg
          cases hg
          exact List.mem_cons_self _ _
        · simp only [dictGet?, h, if_false] at hg
          exact List.mem_cons_of_mem _ (ih hic.2 hg)
    · intro hmem
      induction inconditions with
      | nil => simp at hmem
      | cons hd tl ih =>
        obtain ⟨k1, v1⟩ := hd
        simp only [dictKeys, List.map_cons, List.nodup_cons] at hic
        rcases List.mem_cons.mp hmem with heq | hmem2
        · cases heq
          simp [dictGet?]
        · have hk1 : k1 ≠ name := by
            intro h
            subst h
            exact hic.1 (by
              simpa [dictKeys] using List.mem_map_of_mem Prod.fst hmem2)
          simp only [dictGet?, hk1, if_false]
          exact ih hic.2 hmem2

/-- Witness for C3 at a concrete role: two task files, one guarded. -/
theorem claim3_include_guards_witness :
    ((generateMaintask [] ["tasks/a.yml", "tasks/b.yml"]
        [("tasks/a.yml", "x is defined")]).drop
      (if ([] : List Platform).isEmpty then 0 else 1) =
      ["tasks/a.yml", "tasks/b.yml"].map (fun name =>
        MainPlay.includePlay name
          (dictGet? [("tasks/a.yml", "x is defined")] name))) ∧
    (∀ name cond,
      dictGet? [("tasks/a.yml", "x is defined")] name = some cond ↔
        (name, cond) ∈ [("tasks/a.yml", "x is defined")]) ∧
    (∀ name, dictGet? [("tasks/a.yml", "x is defined")] name = none ↔
      name ∉ dictKeys [("tasks/a.yml", "x is defined")]) :=
  claim3_include_guards [] ["tasks/a.yml", "tasks/b.yml"]
    [("tasks/a.yml", "x is defined")] (by decide)

/-- Manifest fields the generation operations read: `version`, the
`galaxy_info` block, and the tool additions `variables` and `inconditions`
(the last two default to empty mappings, `platforms` to an empty tuple). -/
structure Manifest where
  version? : Option String
  author : String
  description : String
  platforms : List Platform
  manifestVariables : List (String × String)
  inconditions : List (String × String)
  deriving DecidableEq, Repr

/-- Slice of the role directory that `dist` and `distclean` read and write:
the parsed manifest, the defaults file, the hand-written task files, and the
three generated artifacts (inclusion list, readme, distribution directory). -/
structure RoleDir where
  name : String
  manifest : Manifest
  defaults : List (String × String)
  otherTaskFiles : List String
  maintask? : Option (List MainPlay)
  readme? : Option String
  distdirExists : Bool
  deriving DecidableEq, Repr

/-- Result of `glob.glob(os.path.join(TASKSDIR, "*.yml"))`: every task file
currently on disk, the generated `tasks/main.yml` included when it exists.
Glob order is filesystem-dependent; the model lists the hand-written files
first. -/
def taskGlob (r : RoleDir) : List String :=
  r.otherTaskFiles ++ (if r.maintask?.isSome then [MAINTASK_PATH] else [])

/-- Jinja2 values reached while rendering the readme variables loop: the
per-variable dicts of strings, the dict keys the loop yields, and the
Undefined produced by a failed attribute lookup. -/
inductive JValue where
  | jstr (s : String)
  | jdictS (entries : List (String × String))
  | jundefined
  deriving DecidableEq, Repr

/-- Jinja2 attribute access `x.attr`: Python attribute then subscript lookup,
yielding Undefined when both fail, as they do on a plain string. -/
def jAttr : JValue → String → JValue
  | JValue.jdictS es, k =>
    match dictGet? es k with
    | some v => JValue.jstr v
    | none => JValue.jundefined
  | _, _ => JValue.jundefined

/-- Jinja2 output of a value: the default Undefined renders as the empty
string, a dict as its Python str. -/
def jOut : JValue → String
  | JValue.jstr s => s
  | JValue.jundefined => ""
  | JValue.jdictS es =>
    "\x7b" ++ String.intercalate ", "
      (es.map fun e => pyStrRepr e.1 ++ ": " ++ pyStrRepr e.2) ++ "\x7d"

/-- Jinja2 `for` iteration over a Python dict yields its keys. -/
def jDictIter (es : List (String × JValue)) : List JValue :=
  es.map fun e => JValue.jstr e.1

/-- Fields actually present in one merged variable entry, as the dict the
template would see. -/
def varEntryFields (e : VarEntry String) : List (String × String) :=
  (match e.default? with
   | some v => [("default", v)]
   | none => []) ++
  (match e.description? with
   | some v => [("description", v)]
   | none => [])

/-- The `variables` template argument: the merged table as a Jinja2 dict. -/
def varTableEntries (t : List (String × VarEntry String)) :
    List (String × JValue) :=
  t.map fun e => (e.1, JValue.jdictS (varEntryFields e.2))

/-- One row of the readme variables table: the template emits
`var.name`, `var.default` and `var.description` between pipes. -/
def readmeVarRow (v : JValue) : String :=
  "| " ++ jOut (jAttr v "name") ++ " | " ++ jOut (jAttr v "default") ++ " | " ++
    jOut (jAttr v "description") ++ " |"

/-- Rows of the readme variables table: the template line
`for var in variables` iterates the merged table dict. -/
def readmeVarRows (t : List (String × VarEntry String)) : List String :=
  (jDictIter (varTableEntries t)).map readmeVarRow

/-- Fallback sentence for a falsy description. -/
def readmeFallbackDescription : String := "No description (yet.)"

/-- Rendered platform section: the template for/else over `platforms`. -/
def readmePlatformSection (platforms : List Platform) : String :=
  if platforms.isEmpty then "No supported platform specified (yet.)\n"
  else String.join (platforms.map fun p => "  * " ++ p.name ++ "\n")

/-- `Role._generate_readme` rendering (whitespace of the Jinja2 output is
normalized; fixed tail text abbreviated — no claim depends on either). -/
def renderReadme (r : RoleDir) : String :=
  "<!-- THIS IS A GENERATED FILE, DO NOT EDIT -->\n\n# " ++ r.name ++ "\n\n" ++
  (if r.manifest.description = "" then readmeFallbackDescription
   else r.manifest.description) ++
  "\n\n* * *\n\n## Supported Platforms\n\n" ++
  readmePlatformSection r.manifest.platforms ++
  "\n## Variables\n\n| Name | Default | Description |\n|------|---------|-------------|\n" ++
  String.join ((readmeVarRows
    (roleVariables r.defaults r.manifest.manifestVariables)).map (· ++ "\n")) ++
  "\n## Usage\n\nRead Ansible documentation at https://docs.ansible.com/playbooks_roles.html#roles.\n"

/-- `Role.dist`: regenerate each artifact unless its path is excluded; the
inclusion list is rebuilt from the platforms, the task-file glob and the
`inconditions` mapping. -/
def dist (excluded : List String) (r : RoleDir) : RoleDir :=
  let r1 := if README_PATH ∈ excluded then r
    else { r with readme? := some (renderReadme r) }
  if MAINTASK_PATH ∈ excluded then r1
  else { r1 with maintask? := some (generateMaintask r1.manifest.platforms
    (taskGlob r1) r1.manifest.inconditions) }

/-- `Role.distclean`: remove each artifact unless its path is excluded or it
does not exist. -/
def distclean (excluded : List String) (r : RoleDir) : RoleDir :=
  let r1 := if MAINTASK_PATH ∈ excluded ∨ r.maintask?.isNone then r
    else { r with maintask? := none }
  let r2 := if README_PATH ∈ excluded ∨ r1.readme?.isNone then r1
    else { r1 with readme? := none }
  if DISTDIR ∈ excluded ∨ r2.distdirExists = false then r2
  else { r2 with distdirExists := false }

/-- Observable content, or absence, of one artifact path. -/
inductive ArtifactState where
  | absent
  | textFile (s : String)
  | playsFile (ps : List MainPlay)
  | dirPresent
  deriving DecidableEq, Repr

/-- Content (or absence) at an artifact path of the role directory. -/
def artifactAt (r : RoleDir) (p : String) : ArtifactState :=
  if p = README_PATH then
    match r.readme? with
    | some s => ArtifactState.textFile s
    | none => ArtifactState.absent
  else if p = MAINTASK_PATH then
    match r.maintask? with
    | some ps => ArtifactState.playsFile ps
    | none => ArtifactState.absent
  else if p = DISTDIR then
    (if r.distdirExists then ArtifactState.dirPresent else ArtifactState.absent)
  else ArtifactState.absent

theorem dist_readme? (excluded : List String) (r : RoleDir) :
    (dist excluded r).readme? =
      if README_PATH ∈ excluded then r.readme? else some (renderReadme r) := by
  unfold dist
  by_cases hR : README_PATH ∈ excluded <;>
    by_cases hM : MAINTASK_PATH ∈ excluded <;> simp [hR, hM]

theorem dist_maintask?_excluded (excluded : List String) (r : RoleDir)
    (h : MAINTASK_PATH ∈ excluded) : (dist excluded r).maintask? = r.maintask? := by
  unfold dist
  by_cases hR : README_PATH ∈ excluded <;> simp [hR, h]

theorem dist_distdirExists (excluded : List String) (r : RoleDir) :
    (dist excluded r).distdirExists = r.distdirExists := by
  unfold dist
  by_cases hR : README_PATH ∈ excluded <;>
    by_cases hM : MAINTASK_PATH ∈ excluded <;> simp [hR, hM]

theorem distclean_maintask?_excluded (excluded : List String) (r : RoleDir)
    (h : MAINTASK_PATH ∈ excluded) :
    (distclean excluded r).maintask? = r.maintask? := by
  unfold distclean
  simp only [h, true_or, if_true]
  split_ifs <;> rfl

theorem distclean_readme?_excluded (excluded : List String) (r : RoleDir)
    (h : README_PATH ∈ excluded) :
    (distclean excluded r).readme? = r.readme? := by
  unfold distclean
  simp only [h, true_or, if_true]
  split_ifs <;> rfl

theorem distclean_distdirExists_excluded (excluded : List String) (r : RoleDir)
    (h : DISTDIR ∈ excluded) :
    (distclean excluded r).distdirExists = r.distdirExists := by
  unfold distclean
  simp only [h, true_or, if_true]
  split_ifs <;> rfl

/-- C5: an artifact path placed in the exclusion set keeps its content, or its
absence, across both generation and cleanup — `dist` skips writing it and
`distclean` skips deleting it. -/
theorem claim5_exclusion_respected (excluded : List String) (r : RoleDir)
    (p : String) (hp : p ∈ excluded) :
    artifactAt (dist excluded r) p = artifactAt r p ∧
    artifactAt (distclean excluded r) p = artifactAt r p := by
  constructor
  · by_cases hR : p = README_PATH
    · subst hR
      unfold artifactAt
      rw [dist_readme? excluded r, if_pos hp]
      simp
    · by_cases hM : p = MAINTASK_PATH
      · subst hM
        unfold artifactAt
        rw [dist_maintask?_excluded excluded r hp]
        simp [hR]
      · unfold artifactAt
        rw [dist_distdirExists excluded r]
        have h1 : ¬ (DISTDIR = README_PATH) := by decide
        have h2 : ¬ (DISTDIR = MAINTASK_PATH) := by decide
        by_cases hD : p = DISTDIR <;> simp [hR, hM, hD, h1, h2, dist_readme?]
  · by_cases hR : p = README_PATH
    · subst hR
      unfold artifactAt
      rw [distclean_readme?_excluded excluded r hp]
      simp
    · by_cases hM : p = MAINTASK_PATH
      · subst hM
        unfold artifactAt
        rw [distclean_maintask?_excluded excluded r hp]
        simp [hR]
      · by_cases hD : p = DISTDIR
        · subst hD
          unfold artifactAt
          rw [distclean_distdirExists_excluded excluded r hp]
          simp [hR, hM]
        · unfold artifactAt
          simp [hR, hM, hD]

/-- Witness for C5: with both generated file paths excluded, a concrete role
directory keeps the readme content it already had. -/
theorem claim5_exclusion_respected_witness :
    artifactAt
        (dist [README_PATH, MAINTASK_PATH]
          ⟨"foo", ⟨some "0.0.1", "a", "d", [], [], []⟩, [], [], none,
            some "user-owned readme", false⟩)
        README_PATH =
      artifactAt
        ⟨"foo", ⟨some "0.0.1", "a", "d", [], [], []⟩, [], [], none,
          some "user-owned readme", false⟩
        README_PATH ∧
    artifactAt
        (distclean [README_PATH, MAINTASK_PATH]
          ⟨"foo", ⟨some "0.0.1", "a", "d", [], [], []⟩, [], [], none,
            some "user-owned readme", false⟩)
        README_PATH =
      artifactAt
        ⟨"foo", ⟨some "0.0.1", "a", "d", [], [], []⟩, [], [], none,
          some "user-owned readme", false⟩
        README_PATH :=
  claim5_exclusion_respected [README_PATH, MAINTASK_PATH]
    ⟨"foo", ⟨some "0.0.1", "a", "d", [], [], []⟩, [], [], none,
      some "user-owned readme", false⟩
    README_PATH (by simp)

/-- Concrete role directory for the second-run divergence of `dist`: one
hand-written task file, no generated artifacts yet. -/
def roleDirEx : RoleDir :=
  ⟨"foo", ⟨some "0.0.1", "john", "demo role", [], [], []⟩, [],
    ["tasks/install.yml"], none, none, false⟩

/-- C4 fails on the code: the glob `tasks/*.yml` picks up the generated
`tasks/main.yml` itself, so the second `dist` run on an otherwise unchanged
role directory emits an inclusion list with an extra self-include entry —
the two runs are not byte-identical. -/
theorem claim4_dist_second_run_differs :
    (dist [] roleDirEx).maintask? =
      some [MainPlay.includePlay "tasks/install.yml" none] ∧
    (dist [] (dist [] roleDirEx)).maintask? =
      some [MainPlay.includePlay "tasks/install.yml" none,
        MainPlay.includePlay MAINTASK_PATH none] ∧
    (dist [] (dist [] roleDirEx)).maintask? ≠ (dist [] roleDirEx).maintask? := by
  refine ⟨rfl, rfl, ?_⟩
  decide

/-- C6 fails on the code: the readme template iterates the merged variable
table, a Python dict, so the loop variable is each key string; attribute
access on a string yields Undefined, which renders empty. Every emitted row
has three blank columns instead of name, default and description. -/
theorem claim6_readme_rows_blank :
    readmeVarRows (roleVariables [("foo", "1")] [("bar", "desc of bar")]) =
      ["|  |  |  |", "|  |  |  |"] := by
  decide

/-- One play mapping of a task file; the `name` key is the only one the lint
loop itself reads, the rest is visible only to rule predicates. -/
structure Play where
  name? : Option String
  attrs : List (String × String)
  deriving DecidableEq, Repr

/-- A lint rule as discovered by `utils.get_manifests`: a predicate over one
play and a fixed message. -/
structure LintRule where
  predicate : Play → Bool
  message : String

/-- Label used in a warning, `play.get("name", "play#%i" % (idx + 1))` with
`idx` the 0-based enumeration index. -/
def playLabel (p : Play) (idx : Nat) : String :=
  match p.name? with
  | some n => n
  | none => "play#" ++ toString (idx + 1)

/-- Text of one lint warning, `"warning! %s[%s]: %s\n"` (the `utils.yellow`
colorizing wrapper is the identity with colors disabled). -/
def warnLine (path label msg : String) : String :=
  "warning! " ++ path ++ "[" ++ label ++ "]: " ++ msg ++ "\n"

/-- Output streams of the process: `Role.lint` writes to stderr only. -/
structure Streams where
  stdout : List String
  stderr : List String
  deriving DecidableEq, Repr

/-- Inner loop of `Role.lint`: evaluate every rule against one play, writing a
warning to stderr for each violated rule. -/
def lintPlay (rules : List LintRule) (path : String) (idx : Nat) (p : Play)
    (st : Streams) : Streams :=
  rules.foldl (fun st rule =>
    if rule.predicate p then st
    else { st with
      stderr := st.stderr ++ [warnLine path (playLabel p idx) rule.message] }) st

/-- Middle loop of `Role.lint` over one task file: enumerate its plays. -/
def lintFile (rules : List LintRule) (path : String) (plays : List Play)
    (st : Streams) : Streams :=
  (plays.enum).foldl (fun st ip => lintPlay rules path ip.1 ip.2 st) st

/-- `Role.lint`: walk every discovered task file. -/
def lint (rules : List LintRule) (files : List (String × List Play))
    (st : Streams) : Streams :=
  files.foldl (fun st f => lintFile rules f.1 f.2 st) st

/-- Warnings the specification expects for one play: one per violated rule. -/
def playWarnings (rules : List LintRule) (path : String) (idx : Nat) (p : Play) :
    List String :=
  (rules.filter fun rule => ! rule.predicate p).map fun rule =>
    warnLine path (playLabel p idx) rule.message

/-- Warnings the specification expects for one task file. -/
def fileWarnings (rules : List LintRule) (path : String) (plays : List Play) :
    List String :=
  (plays.enum).flatMap fun ip => playWarnings rules path ip.1 ip.2

/-- Warnings the specification expects for a lint run: exactly one per
(file, play, violated rule) triple, in walk order. -/
def lintWarnings (rules : List LintRule) (files : List (String × List Play)) :
    List String :=
  files.flatMap fun f => fileWarnings rules f.1 f.2

theorem lintPlay_run (rules : List LintRule) (path : String) (idx : Nat)
    (p : Play) (st : Streams) :
    lintPlay rules path idx p st =
      ⟨st.stdout, st.stderr ++ playWarnings rules path idx p⟩ := by
  induction rules generalizing st with
  | nil => simp [lintPlay, playWarnings]
  | cons rule rest ih =>
    cases h : rule.predicate p
    · have hstep : lintPlay (rule :: rest) path idx p st =
          lintPlay rest path idx p
            { st with stderr :=
                st.stderr ++ [warnLine path (playLabel p idx) rule.message] } := by
        simp [lintPlay, h]
      rw [hstep, ih]
      simp [playWarnings, h, List.append_assoc]
    · have hstep : lintPlay (rule :: rest) path idx p st =
          lintPlay rest path idx p st := by
        simp [lintPlay, h]
      rw [hstep, ih]
      simp [playWarnings, h]

theorem lintFile_run (rules : List LintRule) (path : String) (plays : List Play)
    (st : Streams) :
    lintFile rules path plays st =
      ⟨st.stdout, st.stderr ++ fileWarnings rules path plays⟩ := by
  unfold lintFile fileWarnings
  generalize plays.enum = l
  induction l generalizing st with
  | nil => simp
  | cons ip rest ih =>
    rw [List.foldl_cons, ih, lintPlay_run]
    simp

/-- C7: a lint run is a total function that leaves stdout untouched and
appends to stderr exactly one warning per (file, play, violated rule) triple,
each built from the file path, the play name (or the synthesized
`play#index`, 1-based) and the rule message. -/
theorem claim7_lint_warnings (rules : List LintRule)
    (files : List (String × List Play)) (st : Streams) :
    lint rules files st = ⟨st.stdout, st.stderr ++ lintWarnings rules files⟩ := by
  unfold lint lintWarnings
  induction files generalizing st with
  | nil => simp
  | cons f rest ih =>
    rw [List.foldl_cons, ih, lintFile_run]
    simp

/-- Python exceptions the embedded operations can raise. -/
inductive PyError where
  | keyError (key : String)
  | typeError (msg : String)
  | universeError (msg : String)
  deriving DecidableEq, Repr

/-- External process invocations performed through `utils.check_call`. -/
inductive ExtCall where
  | curlUpload (localPath : String) (url : String)
  | tarCreate (pkgPath : String)
  deriving DecidableEq, Repr

/-- `Role.publish`: a falsy repository URL raises `Error("no repository")`
before any call; otherwise curl uploads the package. Returns the outcome and
the external calls performed. -/
def publish (repositoryUrl : Option String) (pkgPath : String) :
    Except PyError Unit × List ExtCall :=
  match repositoryUrl with
  | none => (Except.error (PyError.universeError "no repository"), [])
  | some url =>
    if url = "" then (Except.error (PyError.universeError "no repository"), [])
    else (Except.ok (), [ExtCall.curlUpload pkgPath url])

/-- Outcome of one `main` invocation: normal end, a caught domain error
re-raised as `SystemExit` with a (colorizable) message and non-zero exit, or
an exception that escapes as an uncaught traceback. -/
inductive MainOutcome where
  | finished
  | exitNonZero (msg : String)
  | uncaughtTraceback (e : PyError)
  deriving DecidableEq, Repr

/-- Exceptions matched by `except (utils.Error, Error)` in `main`:
`Error` subclasses `utils.Error`, builtin exceptions match neither. -/
def isDomainError : PyError → Bool
  | PyError.universeError _ => true
  | _ => false

/-- Message text of an exception. -/
def errorText : PyError → String
  | PyError.universeError m => m
  | PyError.keyError k => k
  | PyError.typeError m => m

/-- The `try` block of `main` around one target: a domain error becomes
`SystemExit(utils.red(exc))`, anything else escapes. -/
def mainOutcome (run : Except PyError Unit) : MainOutcome :=
  match run with
  | Except.ok _ => MainOutcome.finished
  | Except.error e =>
    if isDomainError e then MainOutcome.exitNonZero (errorText e)
    else MainOutcome.uncaughtTraceback e

/-- C8: publish with no repository URL raises the `no repository` domain
error, which `main` turns into a non-zero exit, and performs no upload call;
with a URL it uploads the previously built package. -/
theorem claim8_publish (pkg url : String) (h : url ≠ "") :
    (publish none pkg = (Except.error (PyError.universeError "no repository"), []) ∧
      mainOutcome (publish none pkg).1 = MainOutcome.exitNonZero "no repository") ∧
    publish (some url) pkg = (Except.ok (), [ExtCall.curlUpload pkg url]) := by
  refine ⟨⟨rfl, rfl⟩, ?_⟩
  simp [publish, h]

/-- Witness for C8 at a concrete package path and URL. -/
theorem claim8_publish_witness :
    (publish none "dist/foo-0.0.1.tgz" =
        (Except.error (PyError.universeError "no repository"), []) ∧
      mainOutcome (publish none "dist/foo-0.0.1.tgz").1 =
        MainOutcome.exitNonZero "no repository") ∧
    publish (some "http://repo.example/api") "dist/foo-0.0.1.tgz" =
      (Except.ok (),
        [ExtCall.curlUpload "dist/foo-0.0.1.tgz" "http://repo.example/api"]) :=
  claim8_publish "dist/foo-0.0.1.tgz" "http://repo.example/api" (by decide)

/-- `Role._get_version`: `self.manifest["version"]` — a subscript on a dict
without the key raises `KeyError`. -/
def getVersion (manifest : List (String × String)) : Except PyError String :=
  match dictGet? manifest "version" with
  | some v => Except.ok v
  | none => Except.error (PyError.keyError "version")

/-- `Role._get_package_path`: `dist/<name>-<version>.tgz`. -/
def packagePath (name version : String) : String :=
  DISTDIR ++ "/" ++ name ++ "-" ++ version ++ ".tgz"

/-- Manifest reads the `package` target performs before invoking tar: the
role version via `Role._get_version`. -/
def packageRun (name : String) (manifest : List (String × String)) :
    Except PyError ExtCall := do
  let v ← getVersion manifest
  pure (ExtCall.tarCreate (packagePath name v))

/-- C9 fails on the code: `Role._get_version` raises `KeyError`, which the
`except (utils.Error, Error)` clause of `main` does not match, so running
`package` on a manifest without a `version` key ends in an uncaught traceback
instead of a domain error surfaced with a (colorizable) message. -/
theorem claim9_missing_version_uncaught :
    mainOutcome ((packageRun "foo" [("author", "john")]).map fun _ => ()) =
      MainOutcome.uncaughtTraceback (PyError.keyError "version") ∧
    ∀ msg, mainOutcome ((packageRun "foo" [("author", "john")]).map fun _ => ()) ≠
      MainOutcome.exitNonZero msg := by
  have h0 : mainOutcome ((packageRun "foo" [("author", "john")]).map fun _ => ()) =
      MainOutcome.uncaughtTraceback (PyError.keyError "version") := rfl
  refine ⟨h0, ?_⟩
  intro msg h
  rw [h0] at h
  exact MainOutcome.noConfusion h

/-- `Role._set_version`: load the whole manifest dict, set the `version` key,
store the whole mapping back; the returned dict is what gets stored. -/
def setVersion {α : Type} (manifest : List (String × α)) (v : α) :
    List (String × α) :=
  dictSet manifest "version" v

/-- C10: setting the version is a whole-manifest read-modify-write that only
replaces the `version` key: every other key maps to its prior value, the
`version` key to the new value, and the key set gains at most `version`. -/
theorem claim10_set_version_frame {α : Type} (manifest : List (String × α))
    (v : α) (k : String) (hk : k ≠ "version") :
    dictGet? (setVersion manifest v) k = dictGet? manifest k ∧
    dictGet? (setVersion manifest v) "version" = some v ∧
    dictKeys (setVersion manifest v) =
      (if "version" ∈ dictKeys manifest then dictKeys manifest
       else dictKeys manifest ++ ["version"]) := by
  refine ⟨?_, ?_, ?_⟩
  · rw [setVersion, dictGet?_dictSet]
    simp [hk]
  · rw [setVersion, dictGet?_dictSet]
    simp
  · rw [setVersion, dictKeys_dictSet]
    by_cases h : "version" ∈ dictKeys manifest
    · rw [if_pos ((dictGet?_isSome_iff manifest "version").mpr h), if_pos h]
    · rw [if_neg (fun hs => h ((dictGet?_isSome_iff manifest "version").mp hs)),
        if_neg h]

/-- Witness for C10 at a concrete manifest: the `author` key survives a
version bump unchanged. -/
theorem claim10_set_version_frame_witness :
    dictGet? (setVersion [("author", "john"), ("version", "0.0.1")] "0.0.2")
        "author" =
      dictGet? [("author", "john"), ("version", "0.0.1")] "author" ∧
    dictGet? (setVersion [("author", "john"), ("version", "0.0.1")] "0.0.2")
        "version" = some "0.0.2" ∧
    dictKeys (setVersion [("author", "john"), ("version", "0.0.1")] "0.0.2") =
      (if "version" ∈ dictKeys [("author", "john"), ("version", "0.0.1")] then
        dictKeys [("author", "john"), ("version", "0.0.1")]
       else dictKeys [("author", "john"), ("version", "0.0.1")] ++ ["version"]) :=
  claim10_set_version_frame [("author", "john"), ("version", "0.0.1")] "0.0.2"
    "author" (by decide)

end Universe
